import Mathlib

/-!
Shallow embedding of the `resume_parser` repository: schemas (`src/root/schemas/Info.py`),
the fuzzy word matcher (`src/root/utils/helper.py`), the two search-option normalizers
(`src/root/parsers/work_ua_parser.py`, `src/root/parsers/robota_ua_parser.py`), the
Work.ua pagination and resume parsing, the Robota.ua search, and the aggregation step of
`src/root/telegram_bot/telegram_bot.py`.  Network and HTML-parsing layers (requests,
BeautifulSoup, the chat SDK) are external capabilities; they are abstracted as function
parameters, exactly at the call boundaries of the source.  Python `int` is modelled as
`Int`, Python `dict`s as association lists with unique keys, `None`-able values as
`Option`, raised exceptions as `Except`.
-/

namespace ResumeParser

/-! ### Data model: `src/root/schemas/Info.py` -/

/-- `Experience(BaseModel)`: position, duration, details, all optional. -/
structure Experience where
  position : Option String
  duration : Option String
  details : Option String
deriving DecidableEq

/-- `Resume(BaseModel)`: href, optional salary expectation, optional experience list,
and the integer `filling_percentage` that orders resumes (`Resume.__lt__`). -/
structure Resume where
  href : String
  salary_expectation : Option String
  experience : Option (List Experience)
  filling_percentage : Int
deriving DecidableEq

/-- `SearchOptions(BaseModel)`: free-text search, optional region, optional salary
bounds, optional list of experience labels. -/
structure SearchOptions where
  search : String
  region : Option String
  salary_from : Option Int
  salary_to : Option Int
  experience : Option (List String)
deriving DecidableEq

/-! ### Python semantics helpers -/

/-- Python dict lookup `d.get(k)` on an association list (keys are unique). -/
def dictGet (m : List (String × α)) (k : String) : Option α :=
  m.lookup k

/-- Python dict lookup `d.get(k)` where the key itself may be `None`
(`None` is never a key of the string-keyed maps, so the result is `None`). -/
def dictGetOpt (m : List (String × α)) (k : Option String) : Option α :=
  match k with
  | none => none
  | some key => dictGet m key

/-- Python `str.strip()`: drop leading and trailing whitespace. -/
def pyStrip (s : String) : String :=
  String.mk (((s.data.dropWhile Char.isWhitespace).reverse.dropWhile Char.isWhitespace).reverse)

/-- Worker for `pyReplace`, on character lists; fuel bounds the recursion and is
always sufficient (each step consumes at least one character). -/
def pyReplaceAux (pat rep : List Char) : Nat → List Char → List Char
  | 0, l => l
  | _ + 1, [] => []
  | fuel + 1, c :: t =>
    if pat.isPrefixOf (c :: t) then
      rep ++ pyReplaceAux pat rep fuel (List.drop pat.length (c :: t))
    else
      c :: pyReplaceAux pat rep fuel t

/-- Python `s.replace(pat, rep)`: replace non-overlapping occurrences left to right.
The sources only ever call it with an empty `rep`, for which Python's empty-pattern
boundary-insertion semantics degenerates to the identity, as modelled here. -/
def pyReplace (s pat rep : String) : String :=
  if pat = "" then s
  else String.mk (pyReplaceAux pat.data rep.data (s.data.length + 1) s.data)

/-- Worker for `pySplitWhite`: the accumulator holds the current (reversed) token. -/
def pySplitWhiteAux : List Char → List Char → List String
  | [], acc => if acc.isEmpty then [] else [String.mk acc.reverse]
  | c :: t, acc =>
    if c.isWhitespace then
      if acc.isEmpty then pySplitWhiteAux t []
      else String.mk acc.reverse :: pySplitWhiteAux t []
    else pySplitWhiteAux t (c :: acc)

/-- Python `str.split()` with no argument: split on whitespace runs, dropping
empty tokens. -/
def pySplitWhite (s : String) : List String :=
  pySplitWhiteAux s.data []

/-- Worker for `pySplitOn`; fuel bounds the recursion and is always sufficient
(each step consumes at least one character of the non-empty separator or input). -/
def pySplitOnAux (sep : List Char) : Nat → List Char → List Char → List (List Char)
  | 0, l, acc => [acc.reverse ++ l]
  | _ + 1, [], acc => [acc.reverse]
  | fuel + 1, c :: t, acc =>
    if sep.isPrefixOf (c :: t) && !sep.isEmpty then
      acc.reverse :: pySplitOnAux sep fuel (List.drop sep.length (c :: t)) []
    else
      pySplitOnAux sep fuel t (c :: acc)

/-- Python `s.split(sep)` for a non-empty separator. -/
def pySplitOn (s sep : String) : List String :=
  (pySplitOnAux sep.data (s.data.length + 1) s.data []).map String.mk

/-- Worker for `strContains`. -/
def listContainsSub (sub : List Char) : List Char → Bool
  | [] => sub.isEmpty
  | c :: t => sub.isPrefixOf (c :: t) || listContainsSub sub t

/-- Python substring test `sub in s`. -/
def strContains (s sub : String) : Bool :=
  listContainsSub sub.data s.data

/-! ### rapidfuzz model: `fuzz.token_sort_ratio` and `process.extractOne`
(`src/root/utils/helper.py` line 23).  `fuzz.ratio` is the normalized indel
similarity on a 0-100 scale, `200 * lcs(a, b) / (|a| + |b|)`; `token_sort_ratio`
applies it to the whitespace tokens of each string sorted and re-joined. -/

/-- Length of a longest common subsequence of two character lists. -/
def lcs : List Char → List Char → Nat
  | [], _ => 0
  | _ :: _, [] => 0
  | a :: as, b :: bs =>
    if a = b then lcs as bs + 1
    else max (lcs (a :: as) bs) (lcs as (b :: bs))
termination_by l1 l2 => l1.length + l2.length

/-- rapidfuzz `fuzz.ratio`: normalized indel similarity, 0-100 scale, as an exact
rational (the source's float); two empty strings score 100. -/
def fuzz_ratio (a b : String) : ℚ :=
  if a.data.length + b.data.length = 0 then 100
  else 200 * (lcs a.data b.data : ℚ) / ((a.data.length : ℚ) + (b.data.length : ℚ))

/-- rapidfuzz token-sort normalization: whitespace tokens, sorted, joined by a space. -/
def sorted_tokens_join (s : String) : String :=
  String.intercalate " " ((pySplitWhite s).mergeSort (fun x y => decide (x ≤ y)))

/-- rapidfuzz `fuzz.token_sort_ratio`: `fuzz.ratio` of the token-sorted strings. -/
def token_sort_ratio (a b : String) : ℚ :=
  fuzz_ratio (sorted_tokens_join a) (sorted_tokens_join b)

/-- One step of rapidfuzz `process.extractOne`'s scan: a strictly better score
replaces the current best, so the first choice attaining the maximum wins. -/
def extractOneStep (scorer : String → String → ℚ) (query : String) :
    Option (String × ℚ) → String → Option (String × ℚ)
  | none, c => some (c, scorer query c)
  | some (b, s), c =>
    if s < scorer query c then some (c, scorer query c) else some (b, s)

/-- rapidfuzz `process.extractOne(query, choices, scorer=...)` with the default
score cutoff 0: the first maximal choice and its score, `none` on empty choices. -/
def extractOne (scorer : String → String → ℚ) (query : String)
    (choices : List String) : Option (String × ℚ) :=
  choices.foldl (extractOneStep scorer query) none

/-- `get_most_similar_word` from `src/root/utils/helper.py`: the best
`token_sort_ratio` match, returned only when its score strictly exceeds the
configured threshold (`int(os.getenv("WORD_SIMILARITY_THRESHOLD"))`, a parameter
here); an implicit `None` otherwise. -/
def get_most_similar_word (threshold : Int) (word : String)
    (vocabulary : List String) : Option String :=
  match extractOne token_sort_ratio word vocabulary with
  | some (m, s) => if (threshold : ℚ) < s then some m else none
  | none => none

/-- The same call when the word may be Python `None` (Robota.ua passes
`search_params.region` unguarded); rapidfuzz yields no match for a `None` query. -/
def get_most_similar_word_opt (threshold : Int) (word : Option String)
    (vocabulary : List String) : Option String :=
  match word with
  | none => none
  | some w => get_most_similar_word threshold w vocabulary

/-! ### Work.ua search-option normalization: `WorkUaParser.__unpack_search_options` -/

/-- The option maps of a `WorkUaParser` instance (loaded from cache files or the
site's JS at startup; opaque static data here). -/
structure WorkUaMaps where
  REGIONS : List (String × Int)
  SALARY_FROM_OPTIONS : List (String × Int)
  SALARY_TO_OPTIONS : List (String × Int)
  EXPERIENCE_OPTIONS : List (String × String)

/-- The Work.ua query dict built by `__unpack_search_options`.  An outer `none`
models a key absent from the dict; `some v` models the key present with value
`v`, where an inner `none` is Python `None`. -/
structure WorkUaPayload where
  search : String
  region : Option (Option Int) := none
  salaryfrom : Option (Option Int) := none
  salaryto : Option (Option Int) := none
  experience : Option String := none
deriving DecidableEq

/-- `"+".join(self.EXPERIENCE_OPTIONS.get(exp, "") for exp in params.experience)`
(work_ua_parser.py lines 144-147). -/
def workua_experience_value (m : WorkUaMaps) (exps : List String) : String :=
  String.intercalate "+"
    (exps.map (fun exp => (dictGet m.EXPERIENCE_OPTIONS exp).getD ""))

/-- `WorkUaParser.__unpack_search_options` (work_ua_parser.py lines 127-149).
Each `if params.x:` guard is Python truthiness: `None`, `""`, `0` and `[]` are
falsy and leave the key out of the dict.  `threshold` is the
`WORD_SIMILARITY_THRESHOLD` of `utils.get_most_similar_word`;
`str(params.salary_from)` is `toString`. -/
def workua_unpack_search_options (m : WorkUaMaps) (threshold : Int)
    (params : SearchOptions) : WorkUaPayload :=
  { search := params.search
  , region :=
      match params.region with
      | none => none
      | some r =>
        if r ≠ "" then
          some (dictGetOpt m.REGIONS
            (get_most_similar_word threshold r (m.REGIONS.map Prod.fst)))
        else none
  , salaryfrom :=
      match params.salary_from with
      | none => none
      | some n =>
        if n ≠ 0 then some (dictGet m.SALARY_FROM_OPTIONS (toString n)) else none
  , salaryto :=
      match params.salary_to with
      | none => none
      | some n =>
        if n ≠ 0 then some (dictGet m.SALARY_TO_OPTIONS (toString n)) else none
  , experience :=
      match params.experience with
      | none => none
      | some exps =>
        if exps ≠ [] then some (workua_experience_value m exps) else none }

/-! ### Robota.ua: login, search-option normalization and search -/

/-- The option maps of a `RobotaUaParser` instance. -/
structure RobotaUaMaps where
  REGIONS : List (String × Int)
  EXPERIENCE_OPTIONS : List (String × Int)

/-- The Robota.ua search payload.  `cityId` is always present (`none` is JSON
null); `salaryFrom`/`salaryTo` model `payload["salary"]["from"/"to"]`, also
always present. -/
structure RobotaUaPayload where
  cityId : Option Int
  keyWords : String
  salaryFrom : Option Int
  salaryTo : Option Int
  experienceIds : List Int
deriving DecidableEq

/-- The `region_name`/`region_id` computation opening
`RobotaUaParser.__unpack_search_options` (robota_ua_parser.py lines 142-145):
`region_id = self.REGIONS[region_name] if region_name else None`.  `region_name`
always comes from the keys of `REGIONS`, so the dict indexing cannot raise and
is modelled by `dictGet`. -/
def robotaua_region_id (m : RobotaUaMaps) (threshold : Int)
    (region : Option String) : Option Int :=
  match get_most_similar_word_opt threshold region (m.REGIONS.map Prod.fst) with
  | some n => if n ≠ "" then dictGet m.REGIONS n else none
  | none => none

/-- The `experienceIds` list comprehension (lines 154-158): mapped values,
keeping only truthy ones (`if self.EXPERIENCE_OPTIONS.get(exp)`; `0` is falsy). -/
def robotaua_experience_ids (m : RobotaUaMaps) (exps : List String) : List Int :=
  exps.filterMap (fun exp =>
    match dictGet m.EXPERIENCE_OPTIONS exp with
    | some v => if v ≠ 0 then some v else none
    | none => none)

/-- The `search_payload` dict literal of `__unpack_search_options` before the
"More than 5 years" expansion.  Iterating a `None` experience list would raise a
TypeError; the bot always supplies a list, hence `getD []`. -/
def robotaua_base_payload (m : RobotaUaMaps) (threshold : Int)
    (params : SearchOptions) : RobotaUaPayload :=
  { cityId := robotaua_region_id m threshold params.region
  , keyWords := params.search
  , salaryFrom := params.salary_from
  , salaryTo := params.salary_to
  , experienceIds := robotaua_experience_ids m (params.experience.getD []) }

/-- `RobotaUaParser.__unpack_search_options` (lines 138-169): after building the
payload, a "More than 5 years" selection appends the ids of "5 to 10 years" and
then "More than 10 years"; the `self.EXPERIENCE_OPTIONS[...]` indexing raises
KeyError when the key is missing. -/
def robotaua_unpack_search_options (m : RobotaUaMaps) (threshold : Int)
    (params : SearchOptions) : Except String RobotaUaPayload :=
  let payload := robotaua_base_payload m threshold params
  if "More than 5 years" ∈ params.experience.getD [] then
    match dictGet m.EXPERIENCE_OPTIONS "5 to 10 years" with
    | none => .error "KeyError: 5 to 10 years"
    | some v1 =>
      match dictGet m.EXPERIENCE_OPTIONS "More than 10 years" with
      | none => .error "KeyError: More than 10 years"
      | some v2 =>
        .ok { payload with experienceIds := payload.experienceIds ++ [v1, v2] }
  else .ok payload

/-- `RobotaUaParser.base_url`. -/
def robota_base_url : String := "https://robota.ua"

/-- `RobotaUaParser.format_salary_expectation`: strip, then replace non-breaking
spaces by spaces. -/
def format_salary_expectation (salary_str : String) : String :=
  pyReplace (pyStrip salary_str) "\u00A0" " "

/-- One experience record of a Robota.ua API response document. -/
structure RobotaExpData where
  position : Option String
  datesDiff : Option String
  company : Option String
deriving DecidableEq

/-- One document of a Robota.ua API response. -/
structure RobotaResumeData where
  resumeId : String
  salary : String
  experience : List RobotaExpData
  fillingPercentage : Int
deriving DecidableEq

/-- `RobotaUaParser.unpack_resume_from_response` (lines 115-136) followed by the
caller's `schemas.Resume(**resume_info)`. -/
def unpack_resume_from_response (rd : RobotaResumeData) : Resume :=
  { href := robota_base_url ++ "/candidates/" ++ rd.resumeId
  , salary_expectation := some (format_salary_expectation rd.salary)
  , experience := some (rd.experience.map (fun e =>
      { position := e.position, duration := e.datesDiff, details := e.company }))
  , filling_percentage := rd.fillingPercentage }

/-- An HTTP response as far as `RobotaUaParser` inspects one: status code, the
`"total"` field of its JSON body when present, the `"documents"` field when
present. -/
structure RobotaResponse where
  status : Nat
  total : Option Nat
  documents : Option (List RobotaResumeData)

/-- `RobotaUaParser.__login` (lines 79-95): token on status 200, an exception
otherwise; the parser constructor fails when this raises. -/
def robotaua_login (status : Nat) (token : String) : Except String String :=
  if status = 200 then .ok token else .error "Failed to login to Robota.ua"

/-- `RobotaUaParser.search_resumes` (lines 171-208) with HTTP abstracted:
`resp1` answers the first query, `resp2` the count-augmented second query.  The
first response's status is never inspected — only `response.json()["total"]` is
read (KeyError when absent).  On the second response, status 200 yields the
mapped documents (KeyError when `"documents"` is absent), an HTTP error status
(400-599) raises through `response.raise_for_status()`, and any other status
falls through to Python's implicit `return None`, modelled by `.ok none`. -/
def robotaua_search_resumes (resp1 resp2 : RobotaResponse) :
    Except String (Option (List Resume)) :=
  match resp1.total with
  | none => .error "KeyError: total"
  | some _ =>
    if resp2.status = 200 then
      match resp2.documents with
      | none => .error "KeyError: documents"
      | some docs => .ok (some (docs.map unpack_resume_from_response))
    else if 400 ≤ resp2.status ∧ resp2.status < 600 then .error "HTTPError"
    else .ok none

/-! ### Work.ua pagination, resume parsing and search -/

/-- Python `range(start, stop, step)` for a positive step. -/
def pyRange (start stop step : Nat) : List Nat :=
  List.range' start ((stop - start + step - 1) / step) step

/-- `math.ceil(total_candidates / 14)` (work_ua_parser.py line 168). -/
def totalPagesFor (total_candidates : Nat) : Nat :=
  (total_candidates + 13) / 14

/-- The page numbers of the two `for page in range(...)` loops of
`get_resume_pages` (lines 173 and 181): even pages 2, 4, ... then odd pages
3, 5, ..., each up to `total_pages`. -/
def laterPages (total_candidates : Nat) : List Nat :=
  pyRange 2 (totalPagesFor total_candidates + 1) 2
    ++ pyRange 3 (totalPagesFor total_candidates + 1) 2

/-- All page numbers requested by `get_resume_pages`, in request order. -/
def pageSchedule (total_candidates : Nat) : List Nat :=
  1 :: laterPages total_candidates

/-- Fetch each page in order; `none` models a `requests.RequestException`, which
aborts the whole loop (lines 189-191 re-raise). -/
def fetchAll (fetchPage : Nat → Option String) :
    List Nat → Except String (List String)
  | [] => .ok []
  | p :: ps =>
    match fetchPage p with
    | none => .error "RequestException"
    | some h =>
      match fetchAll fetchPage ps with
      | .ok hs => .ok (h :: hs)
      | .error e => .error e

/-- `WorkUaParser.get_resume_pages` (lines 151-193): page 1 is fetched first,
the total candidate count is parsed from its text (`get_total_candidates`
raises when the count pattern is missing, modelled by `none`), then the even
and odd pages follow. -/
def get_resume_pages (fetchPage : Nat → Option String)
    (get_total_candidates : String → Option Nat) : Except String (List String) :=
  match fetchPage 1 with
  | none => .error "RequestException"
  | some h1 =>
    match get_total_candidates h1 with
    | none => .error "Unable to find candidate count in the HTML content."
    | some tc =>
      match fetchAll fetchPage (laterPages tc) with
      | .ok hs => .ok (h1 :: hs)
      | .error e => .error e

/-- One entry under the "Work experience" header of a Work.ua resume page, as
extracted by BeautifulSoup: the position heading text and, when the `p.mb-0`
details sibling exists, the optional duration-span text and the details text. -/
structure ExpEntryData where
  position : String
  details : Option (Option String × String)
deriving DecidableEq

/-- The parts of a Work.ua resume page that `WorkUaParser.parse_resume` reads. -/
structure ResumePageData where
  descriptionMeta : Option String
  workExperience : List ExpEntryData
deriving DecidableEq

/-- `WorkUaParser.format_experience_detail`: strip, then replace non-breaking
spaces by spaces. -/
def format_experience_detail (experience : String) : String :=
  pyReplace (pyStrip experience) "\u00A0" " "

/-- The salary branch of `parse_resume` (lines 236-242): when the description
contains "salary starting at", the first whitespace token after its last
occurrence, stripped; `salary_part.split()[0]` raises IndexError when there is
no token.  The result is stored under the dict key `"salary expectation"` —
with a space, not an underscore. -/
def salary_spaced_value : Option String → Except String (Option String)
  | none => .ok none
  | some content =>
    if strContains content "salary starting at" then
      match pySplitWhite ((pySplitOn content "salary starting at").getLastD "") with
      | [] => .error "IndexError"
      | tok :: _ => .ok (some (pyStrip tok))
    else .ok none

/-- The work-experience loop of `parse_resume` (lines 245-269): entries without
a details sibling are dropped; the duration is formatted when its span exists;
the details text has the duration removed and is then formatted. -/
def extractExperience (entries : List ExpEntryData) : List Experience :=
  entries.filterMap (fun entry =>
    match entry.details with
    | none => none
    | some (durTag, detailsText) =>
      let duration := durTag.map format_experience_detail
      some { position := pyStrip entry.position
           , duration := duration
           , details := format_experience_detail
               (pyReplace detailsText (duration.getD "") "") })

/-- The dict built by `parse_resume` (line 233 onward): `salary_expectation`
(the underscore key) is initialized to `""` and never reassigned;
`salary_expectation_spaced` models the distinct `"salary expectation"` key. -/
structure WorkParseDict where
  salary_expectation : String
  salary_expectation_spaced : Option String
  experience : List Experience
  filling_percentage : Int
  href : String
deriving DecidableEq

/-- `WorkUaParser.parse_resume` (lines 227-273) up to the final
`schemas.Resume(**resume)`; the caller's `link` argument is prepended with
`base_url` once more inside (line 271). -/
def parse_resume_dict (base_url link : String) (page : ResumePageData) :
    Except String WorkParseDict :=
  match salary_spaced_value page.descriptionMeta with
  | .error e => .error e
  | .ok sp =>
    .ok { salary_expectation := ""
        , salary_expectation_spaced := sp
        , experience := extractExperience page.workExperience
        , filling_percentage := 0
        , href := base_url ++ link }

/-- `schemas.Resume(**resume)`: pydantic populates the declared fields and
ignores the extra `"salary expectation"` key (its default extra-field policy). -/
def dictToResume (d : WorkParseDict) : Resume :=
  { href := d.href
  , salary_expectation := some d.salary_expectation
  , experience := some d.experience
  , filling_percentage := d.filling_percentage }

/-- `WorkUaParser.parse_resume` returning the pydantic `Resume`. -/
def parse_resume (base_url link : String) (page : ResumePageData) :
    Except String Resume :=
  match parse_resume_dict base_url link page with
  | .error e => .error e
  | .ok d => .ok (dictToResume d)

/-- The inner loop of `WorkUaParser.search_resumes` over the candidate links of
one results page: a `None` from `get_resume_html_from_href` (a failed detail
fetch, lines 211-225) skips the link; `parse_resume` is called on
`base_url + link`; its exceptions propagate.  `extract` abstracts
BeautifulSoup's reading of the detail page. -/
def collectFromLinks (base_url : String) (fetchDetail : String → Option String)
    (extract : String → ResumePageData) :
    List String → Except String (List Resume)
  | [] => .ok []
  | link :: rest =>
    match fetchDetail link with
    | none => collectFromLinks base_url fetchDetail extract rest
    | some html =>
      match parse_resume base_url (base_url ++ link) (extract html) with
      | .error e => .error e
      | .ok r =>
        match collectFromLinks base_url fetchDetail extract rest with
        | .error e => .error e
        | .ok rs => .ok (r :: rs)

/-- The outer loop of `search_resumes` over the fetched results pages;
`hrefsOf` abstracts `get_resume_href_from_html`. -/
def collectFromPages (base_url : String) (hrefsOf : String → List String)
    (fetchDetail : String → Option String) (extract : String → ResumePageData) :
    List String → Except String (List Resume)
  | [] => .ok []
  | pg :: rest =>
    match collectFromLinks base_url fetchDetail extract (hrefsOf pg) with
    | .error e => .error e
    | .ok rs =>
      match collectFromPages base_url hrefsOf fetchDetail extract rest with
      | .error e => .error e
      | .ok more => .ok (rs ++ more)

/-- `WorkUaParser.search_resumes` (lines 275-290) with HTTP and HTML layers
abstracted. -/
def workua_search_resumes (base_url : String) (fetchPage : Nat → Option String)
    (get_total_candidates : String → Option Nat) (hrefsOf : String → List String)
    (fetchDetail : String → Option String) (extract : String → ResumePageData) :
    Except String (List Resume) :=
  match get_resume_pages fetchPage get_total_candidates with
  | .error e => .error e
  | .ok pages => collectFromPages base_url hrefsOf fetchDetail extract pages

/-! ### Aggregation: `TelegramBot.search_resumes`, telegram_bot.py lines 318-320 -/

/-- Python `sorted(resumes, reverse=True)`: a stable descending sort whose
comparison is `Resume.__lt__`, i.e. `filling_percentage`. -/
def pySortedDesc (l : List Resume) : List Resume :=
  l.mergeSort (fun a b => decide (b.filling_percentage ≤ a.filling_percentage))

/-- The aggregation step `sorted(work_ua_results + robota_ua_results,
reverse=True)[:topN]` (the bot instantiates `topN = 5`). -/
def aggregate (A B : List Resume) (topN : Nat) : List Resume :=
  (pySortedDesc (A ++ B)).take topN

/-- `combined_results[:5]` exactly as the bot slices it. -/
def top_five_resumes (A B : List Resume) : List Resume :=
  aggregate A B 5

/-- A sample Robota.ua experience map used by concrete instances below. -/
def sampleExpMap : RobotaUaMaps :=
  ⟨[], [("More than 5 years", 3), ("5 to 10 years", 4), ("More than 10 years", 5)]⟩

/-- A sample search with the "More than 5 years" label selected. -/
def sampleExpOptions : SearchOptions :=
  ⟨"dev", none, none, none, some ["More than 5 years"]⟩

/-- A sample experience map in which "More than 5 years" itself is unmapped but
the two finer brackets are mapped. -/
def sampleExpMapUnmapped : RobotaUaMaps :=
  ⟨[], [("5 to 10 years", 4), ("More than 10 years", 5)]⟩

/-! ### Library lemmas about the embedding -/

theorem lcs_cons_eq (b : Char) (as bs : List Char) :
    lcs (b :: as) (b :: bs) = lcs as bs + 1 := by
  rw [lcs, if_pos rfl]

theorem lcs_le_left : ∀ (x y : List Char), lcs x y ≤ x.length := by
  intro x y
  induction x, y using lcs.induct with
  | case1 y => simp [lcs]
  | case2 a as => rw [lcs]; exact Nat.zero_le _
  | case3 as b bs ih => rw [lcs_cons_eq]; simp only [List.length_cons]; omega
  | case4 a as b bs h ih1 ih2 =>
    rw [lcs, if_neg h]
    simp only [List.length_cons] at *
    omega

theorem lcs_le_right : ∀ (x y : List Char), lcs x y ≤ y.length := by
  intro x y
  induction x, y using lcs.induct with
  | case1 y => simp [lcs]
  | case2 a as => rw [lcs]; exact Nat.zero_le _
  | case3 as b bs ih => rw [lcs_cons_eq]; simp only [List.length_cons]; omega
  | case4 a as b bs h ih1 ih2 =>
    rw [lcs, if_neg h]
    simp only [List.length_cons] at *
    omega

theorem lcs_self : ∀ (x : List Char), lcs x x = x.length := by
  intro x
  induction x with
  | nil => rw [lcs]; rfl
  | cons a t ih => rw [lcs_cons_eq, ih]; rfl

theorem fuzz_ratio_self (s : String) : fuzz_ratio s s = 100 := by
  unfold fuzz_ratio
  rcases Nat.eq_zero_or_pos s.data.length with h | h
  · rw [if_pos (by omega)]
  · rw [if_neg (by omega), lcs_self]
    have hL : (0:ℚ) < (s.data.length : ℚ) := by exact_mod_cast h
    rw [div_eq_iff (by linarith)]
    ring

theorem fuzz_ratio_le_100 (a b : String) : fuzz_ratio a b ≤ 100 := by
  unfold fuzz_ratio
  by_cases h : a.data.length + b.data.length = 0
  · rw [if_pos h]
  · rw [if_neg h]
    have hpos : (0:ℚ) < (a.data.length : ℚ) + (b.data.length : ℚ) := by
      have h' : 0 < a.data.length + b.data.length := Nat.pos_of_ne_zero h
      exact_mod_cast h'
    rw [div_le_iff₀ hpos]
    have h1 := lcs_le_left a.data b.data
    have h2 := lcs_le_right a.data b.data
    have h3 : 200 * lcs a.data b.data ≤ 100 * (a.data.length + b.data.length) := by omega
    exact_mod_cast h3

theorem token_sort_ratio_self (s : String) : token_sort_ratio s s = 100 :=
  fuzz_ratio_self _

theorem token_sort_ratio_le_100 (a b : String) : token_sort_ratio a b ≤ 100 :=
  fuzz_ratio_le_100 _ _

theorem extractOne_foldl_shape (scorer : String → String → ℚ) (query : String) :
    ∀ (l : List String) (init : Option (String × ℚ)) (b : String) (s : ℚ),
      l.foldl (extractOneStep scorer query) init = some (b, s) →
      init = some (b, s) ∨ (b ∈ l ∧ s = scorer query b) := by
  intro l
  induction l with
  | nil => intro init b s h; exact Or.inl h
  | cons c t ih =>
    intro init b s h
    rw [List.foldl_cons] at h
    rcases ih (extractOneStep scorer query init c) b s h with h1 | h2
    · match init with
      | none =>
        simp only [extractOneStep, Option.some.injEq, Prod.mk.injEq] at h1
        right
        exact ⟨by simp [h1.1], by rw [← h1.1]; exact h1.2.symm⟩
      | some (b0, s0) =>
        simp only [extractOneStep] at h1
        by_cases hlt : s0 < scorer query c
        · rw [if_pos hlt] at h1
          simp only [Option.some.injEq, Prod.mk.injEq] at h1
          right
          exact ⟨by simp [h1.1], by rw [← h1.1]; exact h1.2.symm⟩
        · rw [if_neg hlt] at h1
          exact Or.inl h1
    · right
      exact ⟨List.mem_cons_of_mem c h2.1, h2.2⟩

theorem extractOne_shape (scorer : String → String → ℚ) (query : String)
    (l : List String) (b : String) (s : ℚ)
    (h : extractOne scorer query l = some (b, s)) : b ∈ l ∧ s = scorer query b := by
  rcases extractOne_foldl_shape scorer query l none b s h with h1 | h2
  · exact absurd h1 (by simp)
  · exact h2

theorem extractOne_foldl_keep (scorer : String → String → ℚ) (query : String)
    (w : String) (s : ℚ) :
    ∀ (post : List String), (∀ c ∈ post, scorer query c ≤ s) →
      post.foldl (extractOneStep scorer query) (some (w, s)) = some (w, s) := by
  intro post
  induction post with
  | nil => intro _; rfl
  | cons c t ih =>
    intro h
    have hc : scorer query c ≤ s := h c (by simp)
    have hstep : extractOneStep scorer query (some (w, s)) c = some (w, s) := by
      simp only [extractOneStep]
      rw [if_neg (not_lt.mpr hc)]
    rw [List.foldl_cons, hstep]
    exact ih (fun x hx => h x (by simp [hx]))

theorem extractOne_foldl_below (scorer : String → String → ℚ) (query : String) (S : ℚ) :
    ∀ (pre : List String), (∀ c ∈ pre, scorer query c < S) →
      ∀ init, (init = none ∨ ∃ b s, init = some (b, s) ∧ s < S) →
      (pre.foldl (extractOneStep scorer query) init = none
        ∨ ∃ b s, pre.foldl (extractOneStep scorer query) init = some (b, s) ∧ s < S) := by
  intro pre
  induction pre with
  | nil => intro _ init h; simpa using h
  | cons c t ih =>
    intro hpre init hinit
    have hc : scorer query c < S := hpre c (by simp)
    rw [List.foldl_cons]
    apply ih (fun x hx => hpre x (by simp [hx]))
    rcases hinit with rfl | ⟨b, s, rfl, hs⟩
    · right; exact ⟨c, scorer query c, rfl, hc⟩
    · simp only [extractOneStep]
      by_cases hlt : s < scorer query c
      · rw [if_pos hlt]; right; exact ⟨c, scorer query c, rfl, hc⟩
      · rw [if_neg hlt]; right; exact ⟨b, s, rfl, hs⟩

theorem extractOne_first_max (scorer : String → String → ℚ) (query : String)
    (pre post : List String) (w : String)
    (hpre : ∀ c ∈ pre, scorer query c < scorer query w)
    (hpost : ∀ c ∈ post, scorer query c ≤ scorer query w) :
    extractOne scorer query (pre ++ w :: post) = some (w, scorer query w) := by
  unfold extractOne
  rw [List.foldl_append]
  rcases extractOne_foldl_below scorer query (scorer query w) pre hpre none (Or.inl rfl)
    with h1 | ⟨b, s, h1, hs⟩
  · rw [h1, List.foldl_cons]
    have hstep : extractOneStep scorer query none w = some (w, scorer query w) := rfl
    rw [hstep]
    exact extractOne_foldl_keep scorer query w _ post hpost
  · rw [h1, List.foldl_cons]
    have hstep : extractOneStep scorer query (some (b, s)) w
        = some (w, scorer query w) := by
      simp only [extractOneStep]
      rw [if_pos hs]
    rw [hstep]
    exact extractOne_foldl_keep scorer query w _ post hpost

theorem get_most_similar_word_exact (threshold : Int) (w : String)
    (pre post : List String) (hth : threshold < 100)
    (hpre : ∀ k ∈ pre, token_sort_ratio w k < 100) :
    get_most_similar_word threshold w (pre ++ w :: post) = some w := by
  have hmax := extractOne_first_max token_sort_ratio w pre post w
    (by intro c hc; rw [token_sort_ratio_self]; exact hpre c hc)
    (by intro c _; rw [token_sort_ratio_self]; exact token_sort_ratio_le_100 w c)
  have hth' : ((threshold : ℚ)) < 100 := by exact_mod_cast hth
  simp [get_most_similar_word, hmax, token_sort_ratio_self, hth']

theorem get_most_similar_word_below (threshold : Int) (w : String)
    (vocab : List String)
    (h : ∀ k ∈ vocab, token_sort_ratio w k ≤ (threshold : ℚ)) :
    get_most_similar_word threshold w vocab = none := by
  cases h' : extractOne token_sort_ratio w vocab with
  | none => simp [get_most_similar_word, h']
  | some p =>
    obtain ⟨b, s⟩ := p
    obtain ⟨hmem, rfl⟩ := extractOne_shape token_sort_ratio w vocab b s h'
    have hle : token_sort_ratio w b ≤ (threshold : ℚ) := h b hmem
    simp [get_most_similar_word, h', not_lt.mpr hle]

theorem fetchAll_map_ok (f : Nat → String) :
    ∀ (ps : List Nat), fetchAll (fun p => some (f p)) ps = .ok (ps.map f) := by
  intro ps
  induction ps with
  | nil => rfl
  | cons p t ih => simp [fetchAll, ih]

theorem fetchAll_isOk_false (fetchPage : Nat → Option String) :
    ∀ (ps : List Nat) (p : Nat), p ∈ ps → fetchPage p = none →
      (fetchAll fetchPage ps).isOk = false := by
  intro ps
  induction ps with
  | nil => intro p h; simp at h
  | cons q t ih =>
    intro p hp hnone
    rcases List.mem_cons.mp hp with rfl | hmem
    · simp only [fetchAll, hnone]
      rfl
    · cases hq : fetchPage q with
      | none =>
        simp only [fetchAll, hq]
        rfl
      | some h =>
        have hrec := ih p hmem hnone
        cases hfa : fetchAll fetchPage t with
        | ok hs =>
          rw [hfa] at hrec
          simp [Except.isOk, Except.toBool] at hrec
        | error e =>
          simp only [fetchAll, hq, hfa]
          rfl

theorem mem_pyRange_even (tp p : Nat) :
    p ∈ pyRange 2 (tp + 1) 2 ↔ 2 ≤ p ∧ p ≤ tp ∧ p % 2 = 0 := by
  unfold pyRange
  rw [List.mem_range']
  constructor
  · rintro ⟨i, hi, rfl⟩
    omega
  · rintro ⟨h2, hle, hmod⟩
    exact ⟨(p - 2) / 2, by omega, by omega⟩

theorem mem_pyRange_odd (tp p : Nat) :
    p ∈ pyRange 3 (tp + 1) 2 ↔ 3 ≤ p ∧ p ≤ tp ∧ p % 2 = 1 := by
  unfold pyRange
  rw [List.mem_range']
  constructor
  · rintro ⟨i, hi, rfl⟩
    omega
  · rintro ⟨h2, hle, hmod⟩
    exact ⟨(p - 3) / 2, by omega, by omega⟩

theorem collectFromLinks_skips_failed (base_url : String)
    (fetchDetail : String → Option String) (extract : String → ResumePageData) :
    ∀ (links : List String),
      collectFromLinks base_url fetchDetail extract
          (links.filter (fun l => (fetchDetail l).isSome))
        = collectFromLinks base_url fetchDetail extract links := by
  intro links
  induction links with
  | nil => rfl
  | cons l t ih =>
    rw [List.filter_cons]
    cases hd : fetchDetail l with
    | none => simp [hd, collectFromLinks, ih]
    | some html => simp [hd, collectFromLinks, ih]

theorem parse_resume_dict_salary (base_url link : String) (page : ResumePageData)
    (d : WorkParseDict) (h : parse_resume_dict base_url link page = .ok d) :
    d.salary_expectation = "" := by
  unfold parse_resume_dict at h
  cases hs : salary_spaced_value page.descriptionMeta with
  | error e => rw [hs] at h; exact absurd h (by simp)
  | ok sp =>
    rw [hs] at h
    simp only [Except.ok.injEq] at h
    rw [← h]

/-- C1: for all resume lists `A`, `B` and every `topN`, the aggregation step
`sorted(A + B, reverse=True)[:topN]` returns `min(topN, |A| + |B|)` resumes in
which no element has a smaller `filling_percentage` than any element after it;
aggregating two empty lists yields the empty list. -/
theorem C1_aggregate_length_sorted (A B : List Resume) (topN : Nat) :
    (aggregate A B topN).length = min topN (A.length + B.length)
    ∧ List.Pairwise
        (fun r1 r2 => r2.filling_percentage ≤ r1.filling_percentage)
        (aggregate A B topN)
    ∧ aggregate ([] : List Resume) ([] : List Resume) topN = [] := by
  refine ⟨?_, ?_, ?_⟩
  · simp [aggregate, pySortedDesc, List.length_take, List.length_mergeSort]
  · have hs := @List.sorted_mergeSort Resume
      (fun a b => decide (b.filling_percentage ≤ a.filling_percentage))
      (by
        intro a b c hab hbc
        simp only [decide_eq_true_eq] at *
        exact le_trans hbc hab)
      (by
        intro a b
        simp only [Bool.or_eq_true, decide_eq_true_eq]
        exact Int.le_total _ _)
      (A ++ B)
    have hsub : (aggregate A B topN).Sublist (pySortedDesc (A ++ B)) :=
      List.take_sublist _ _
    exact (List.Pairwise.sublist hsub hs).imp (fun h => of_decide_eq_true h)
  · simp [aggregate, pySortedDesc]

/-- C7: for every total candidate count reported by the first page, the page
numbers fetched are exactly page 1, then the even pages from 2 up to
`total_pages` ascending, then the odd pages from 3 up to `total_pages`
ascending, where `total_pages = ceil(total_candidates / 14)`. -/
theorem C7_pagination_order (tc : Nat) (f : Nat → String)
    (cnt : String → Option Nat) (hcnt : cnt (f 1) = some tc) :
    get_resume_pages (fun p => some (f p)) cnt = .ok ((pageSchedule tc).map f)
    ∧ pageSchedule tc
        = 1 :: (pyRange 2 (totalPagesFor tc + 1) 2
            ++ pyRange 3 (totalPagesFor tc + 1) 2)
    ∧ (∀ p, p ∈ pyRange 2 (totalPagesFor tc + 1) 2 ↔
        2 ≤ p ∧ p ≤ totalPagesFor tc ∧ p % 2 = 0)
    ∧ (∀ p, p ∈ pyRange 3 (totalPagesFor tc + 1) 2 ↔
        3 ≤ p ∧ p ≤ totalPagesFor tc ∧ p % 2 = 1)
    ∧ List.Pairwise (fun a b => a < b) (pyRange 2 (totalPagesFor tc + 1) 2)
    ∧ List.Pairwise (fun a b => a < b) (pyRange 3 (totalPagesFor tc + 1) 2)
    ∧ tc ≤ 14 * totalPagesFor tc ∧ 14 * totalPagesFor tc < tc + 14 := by
  refine ⟨?_, rfl, mem_pyRange_even _, mem_pyRange_odd _, ?_, ?_, ?_, ?_⟩
  · simp [get_resume_pages, hcnt, fetchAll_map_ok, pageSchedule]
  · exact List.pairwise_lt_range' _ _ 2 (by omega)
  · exact List.pairwise_lt_range' _ _ 2 (by omega)
  · have h := Nat.div_add_mod (tc + 13) 14
    have h2 : (tc + 13) % 14 < 14 := Nat.mod_lt _ (by omega)
    unfold totalPagesFor
    omega
  · have h := Nat.div_add_mod (tc + 13) 14
    have h2 : (tc + 13) % 14 < 14 := Nat.mod_lt _ (by omega)
    unfold totalPagesFor
    omega

theorem C7_witness :
    get_resume_pages (fun _ => some "page") (fun _ => some 30)
      = .ok ((pageSchedule 30).map (fun _ => "page")) :=
  (C7_pagination_order 30 (fun _ => "page") (fun _ => some 30) rfl).1

/-- C8 (amended): construction fails whenever the login exchange returns a
non-200 status, and `search_resumes` fails whenever the second (count-augmented)
query returns an HTTP error status (400-599); with a non-200, non-error second
status it returns `None` rather than a list, and the status of the first query
is never inspected — its failure surfaces only if its JSON body lacks `"total"`. -/
theorem C8_error_conditions (loginStatus : Nat) (token : String)
    (r1 r2 r2b : RobotaResponse) (s t : Nat)
    (hl : loginStatus ≠ 200)
    (hb1 : 400 ≤ r2.status) (hb2 : r2.status < 600)
    (hc1 : r2b.status ≠ 200) (hc2 : ¬(400 ≤ r2b.status ∧ r2b.status < 600))
    (ht : r1.total = some t) :
    robotaua_login loginStatus token = .error "Failed to login to Robota.ua"
    ∧ (robotaua_search_resumes r1 r2).isOk = false
    ∧ robotaua_search_resumes r1 r2b = .ok none
    ∧ robotaua_search_resumes { r1 with status := s } r2
        = robotaua_search_resumes r1 r2 := by
  refine ⟨?_, ?_, ?_, rfl⟩
  · simp [robotaua_login, hl]
  · have hne : r2.status ≠ 200 := by omega
    cases htot : r1.total with
    | none =>
      simp only [robotaua_search_resumes, htot]
      rfl
    | some x =>
      simp only [robotaua_search_resumes, htot, if_neg hne,
        if_pos (show 400 ≤ r2.status ∧ r2.status < 600 from ⟨hb1, hb2⟩)]
      rfl
  · simp only [robotaua_search_resumes, ht, if_neg hc1, if_neg hc2]

theorem C8_witness :
    robotaua_login 403 "token" = .error "Failed to login to Robota.ua"
    ∧ (robotaua_search_resumes ⟨500, some 5, none⟩ ⟨503, some 1, some []⟩).isOk
        = false
    ∧ robotaua_search_resumes ⟨500, some 5, none⟩ ⟨204, none, none⟩ = .ok none
    ∧ robotaua_search_resumes ⟨200, some 5, none⟩ ⟨503, some 1, some []⟩
        = robotaua_search_resumes ⟨500, some 5, none⟩ ⟨503, some 1, some []⟩ :=
  C8_error_conditions 403 "token" ⟨500, some 5, none⟩ ⟨503, some 1, some []⟩
    ⟨204, none, none⟩ 200 5 (by decide) (by decide) (by decide) (by decide)
    (by decide) rfl

/-- C8 counterexample: the first query answers with status 500 (but a JSON body
carrying `"total"`), the second with status 200; `search_resumes` succeeds with
a list instead of failing, so a non-success status on the first query does not
produce an error. -/
theorem C8_counterexample :
    robotaua_search_resumes ⟨500, some 5, none⟩ ⟨200, some 5, some []⟩
      = .ok (some []) := rfl

/-- C9: a fetch failure on any top-level results page aborts the whole Work.ua
search with the propagated error (no partial list), while a fetch failure on an
individual candidate detail page only excludes that link — processing the links
whose detail fetch succeeds gives the same result as processing all of them. -/
theorem C9_error_channels (base_url : String)
    (fetchPage fetchPage2 : Nat → Option String)
    (cnt : String → Option Nat) (hrefsOf : String → List String)
    (fetchDetail : String → Option String) (extract : String → ResumePageData)
    (e : String) (links : List String) (p : Nat) (h1 : String) (tc : Nat)
    (herr : get_resume_pages fetchPage cnt = .error e)
    (hf1 : fetchPage2 1 = some h1) (hcnt : cnt h1 = some tc)
    (hp : p ∈ laterPages tc) (hfp : fetchPage2 p = none) :
    workua_search_resumes base_url fetchPage cnt hrefsOf fetchDetail extract
        = .error e
    ∧ (get_resume_pages fetchPage2 cnt).isOk = false
    ∧ collectFromLinks base_url fetchDetail extract
        (links.filter (fun l => (fetchDetail l).isSome))
      = collectFromLinks base_url fetchDetail extract links := by
  refine ⟨?_, ?_, collectFromLinks_skips_failed _ _ _ links⟩
  · simp [workua_search_resumes, herr]
  · have hfa := fetchAll_isOk_false fetchPage2 (laterPages tc) p hp hfp
    cases hres : fetchAll fetchPage2 (laterPages tc) with
    | ok hs =>
      rw [hres] at hfa
      simp [Except.isOk, Except.toBool] at hfa
    | error e2 =>
      simp only [get_resume_pages, hf1, hcnt, hres]
      rfl

theorem C9_witness :
    workua_search_resumes "https://www.work.ua" (fun _ => none) (fun _ => some 30)
        (fun _ => []) (fun l => if l = "a" then some "html" else none)
        (fun _ => ⟨none, []⟩) = .error "RequestException"
    ∧ (get_resume_pages (fun n => if n = 1 then some "30 candidates" else none)
        (fun _ => some 30)).isOk = false
    ∧ collectFromLinks "https://www.work.ua"
        (fun l => if l = "a" then some "html" else none) (fun _ => ⟨none, []⟩)
        ((["a", "b"]).filter
          (fun l => ((if l = "a" then some "html" else none) : Option String).isSome))
      = collectFromLinks "https://www.work.ua"
        (fun l => if l = "a" then some "html" else none) (fun _ => ⟨none, []⟩)
        ["a", "b"] :=
  C9_error_channels "https://www.work.ua" (fun _ => none)
    (fun n => if n = 1 then some "30 candidates" else none) (fun _ => some 30)
    (fun _ => []) (fun l => if l = "a" then some "html" else none)
    (fun _ => ⟨none, []⟩) "RequestException" ["a", "b"] 2 "30 candidates" 30
    rfl rfl rfl (by decide) rfl

/-- C10: every Resume produced by `WorkUaParser.parse_resume` has
`salary_expectation = ""`: the dict initializes the underscore key to `""` and
the extracted salary is written under the distinct key `"salary expectation"`
(with a space), which pydantic discards. -/
theorem C10_salary_expectation_empty (base_url link : String)
    (page : ResumePageData) (r : Resume)
    (h : parse_resume base_url link page = .ok r) :
    r.salary_expectation = some "" := by
  unfold parse_resume at h
  cases hd : parse_resume_dict base_url link page with
  | error e => rw [hd] at h; exact absurd h (by simp)
  | ok d =>
    rw [hd] at h
    simp only [Except.ok.injEq] at h
    rw [← h]
    simp [dictToResume, parse_resume_dict_salary base_url link page d hd]

theorem C10_witness :
    parse_resume "https://www.work.ua" "/resumes/1/"
        ⟨some "Developer resume, salary starting at 5000 USD", []⟩
      = .ok ⟨"https://www.work.ua/resumes/1/", some "", some [], 0⟩
    ∧ parse_resume_dict "https://www.work.ua" "/resumes/1/"
        ⟨some "Developer resume, salary starting at 5000 USD", []⟩
      = .ok ⟨"", some "5000", [], 0, "https://www.work.ua/resumes/1/"⟩
    ∧ (Resume.mk "https://www.work.ua/resumes/1/" (some "") (some []) 0).salary_expectation
        = some "" :=
  ⟨rfl, rfl,
    C10_salary_expectation_empty "https://www.work.ua" "/resumes/1/"
      ⟨some "Developer resume, salary starting at 5000 USD", []⟩
      ⟨"https://www.work.ua/resumes/1/", some "", some [], 0⟩ rfl⟩

theorem intercalate_go_append (s : String) :
    ∀ (l : List String) (x y : String),
      String.intercalate.go (x ++ y) s l = x ++ String.intercalate.go y s l := by
  intro l
  induction l with
  | nil => intro x y; rfl
  | cons a as ih =>
    intro x y
    simp only [String.intercalate.go]
    have h : x ++ y ++ s ++ a = x ++ (y ++ s ++ a) := by
      simp [String.append_assoc]
    rw [h, ih]

theorem intercalate_cons_cons (s a b : String) (t : List String) :
    String.intercalate s (a :: b :: t)
      = a ++ s ++ String.intercalate s (b :: t) := by
  show String.intercalate.go a s (b :: t) = a ++ s ++ String.intercalate.go b s t
  simp only [String.intercalate.go]
  rw [show a ++ s ++ b = (a ++ s) ++ b from rfl, intercalate_go_append]

theorem filterMap_filter_ne (f : String → Option Int) (l : String)
    (hf : f l = none) :
    ∀ (exps : List String),
      (exps.filter (fun e => decide (e ≠ l))).filterMap f = exps.filterMap f := by
  intro exps
  induction exps with
  | nil => rfl
  | cons e t ih =>
    simp only [ne_eq, decide_not] at ih ⊢
    rw [List.filter_cons]
    by_cases he : e = l
    · subst he
      simp [List.filterMap_cons, hf, ih]
    · cases hfe : f e with
      | none => simp [he, List.filterMap_cons, hfe, ih]
      | some v => simp [he, List.filterMap_cons, hfe, ih]

/-- C2 (amended): a region string exactly equal to a region-map key is selected
whenever the configured threshold is strictly below 100 and no earlier key of
the map already attains a token-sort score of 100 against it (rapidfuzz keeps
the first maximal match, and an exact match scores exactly 100, which never
strictly exceeds a threshold of 100 or more). -/
theorem C2_exact_region_selected (m : WorkUaMaps) (threshold : Int)
    (w : String) (pre post : List String) (params : SearchOptions)
    (hvocab : m.REGIONS.map Prod.fst = pre ++ w :: post)
    (hth : threshold < 100)
    (hpre : ∀ k ∈ pre, token_sort_ratio w k < 100)
    (hr : params.region = some w) (hw : w ≠ "") :
    get_most_similar_word threshold w (m.REGIONS.map Prod.fst) = some w
    ∧ (workua_unpack_search_options m threshold params).region
        = some (dictGet m.REGIONS w) := by
  have h1 : get_most_similar_word threshold w (m.REGIONS.map Prod.fst) = some w := by
    rw [hvocab]
    exact get_most_similar_word_exact threshold w pre post hth hpre
  refine ⟨h1, ?_⟩
  simp [workua_unpack_search_options, hr, hw, h1, dictGetOpt]

theorem C2_witness :
    get_most_similar_word 70 "Kyiv" ([("Kyiv", 1), ("Lviv", 2)].map Prod.fst)
      = some "Kyiv"
    ∧ (workua_unpack_search_options ⟨[("Kyiv", 1), ("Lviv", 2)], [], [], []⟩ 70
        ⟨"dev", some "Kyiv", none, none, none⟩).region
      = some (dictGet [("Kyiv", 1), ("Lviv", 2)] "Kyiv") :=
  C2_exact_region_selected ⟨[("Kyiv", 1), ("Lviv", 2)], [], [], []⟩ 70 "Kyiv"
    [] ["Lviv"] ⟨"dev", some "Kyiv", none, none, none⟩ rfl (by decide)
    (fun k hk => absurd hk (List.not_mem_nil k)) rfl (by decide)

/-- C2 counterexample: with the similarity threshold configured at 100, the
region "Kyiv" matches the key "Kyiv" exactly (token-sort score 100), but 100 is
not strictly greater than the threshold, so the fuzzy match selects nothing —
the claim's "regardless of the threshold value" fails. -/
theorem C2_counterexample :
    get_most_similar_word 100 "Kyiv" ["Kyiv"] = none
    ∧ get_most_similar_word 100 "Kyiv" ["Kyiv"] ≠ some "Kyiv" := by
  have h : get_most_similar_word 100 "Kyiv" ["Kyiv"] = none :=
    get_most_similar_word_below 100 "Kyiv" ["Kyiv"]
      (fun k _ => le_trans (token_sort_ratio_le_100 "Kyiv" k) (by norm_num))
  exact ⟨h, by rw [h]; simp⟩

/-- C3 (amended): when the region string scores at or below the similarity
threshold against every region key, both normalizers still emit the region
field, with a null value: Work.ua sets `payload["region"] = None` (the key is
present), and Robota.ua computes `region_id = None` for its always-present
`cityId` field. -/
theorem C3_unmatched_region_null (m : WorkUaMaps) (rm : RobotaUaMaps)
    (threshold : Int) (params : SearchOptions) (r : String)
    (hr : params.region = some r) (hne : r ≠ "")
    (hwork : ∀ k ∈ m.REGIONS.map Prod.fst, token_sort_ratio r k ≤ (threshold : ℚ))
    (hrob : ∀ k ∈ rm.REGIONS.map Prod.fst, token_sort_ratio r k ≤ (threshold : ℚ)) :
    (workua_unpack_search_options m threshold params).region = some none
    ∧ robotaua_region_id rm threshold params.region = none := by
  constructor
  · have h := get_most_similar_word_below threshold r (m.REGIONS.map Prod.fst) hwork
    simp [workua_unpack_search_options, hr, hne, h, dictGetOpt]
  · have h := get_most_similar_word_below threshold r (rm.REGIONS.map Prod.fst) hrob
    simp [robotaua_region_id, get_most_similar_word_opt, hr, h]

theorem C3_witness :
    (workua_unpack_search_options ⟨[("Kyiv", 1)], [], [], []⟩ 100
        ⟨"dev", some "Lviv", none, none, none⟩).region = some none
    ∧ robotaua_region_id ⟨[("Kyiv", 1)], []⟩ 100 (some "Lviv") = none :=
  C3_unmatched_region_null ⟨[("Kyiv", 1)], [], [], []⟩ ⟨[("Kyiv", 1)], []⟩ 100
    ⟨"dev", some "Lviv", none, none, none⟩ "Lviv" rfl (by decide)
    (fun k _ => le_trans (token_sort_ratio_le_100 "Lviv" k) (by norm_num))
    (fun k _ => le_trans (token_sort_ratio_le_100 "Lviv" k) (by norm_num))

/-- C3 counterexample: region "Lviv" with threshold 100 scores at or below the
threshold against the single key "Kyiv", yet the Work.ua payload still contains
the region key — set to `None` — rather than omitting it. -/
theorem C3_counterexample :
    (workua_unpack_search_options ⟨[("Kyiv", 1)], [], [], []⟩ 100
        ⟨"dev", some "Lviv", none, none, none⟩).region ≠ none := by
  have h := get_most_similar_word_below 100 "Lviv" ["Kyiv"]
    (fun k _ => le_trans (token_sort_ratio_le_100 "Lviv" k) (by norm_num))
  simp [workua_unpack_search_options, h, dictGetOpt]

/-- C4 (amended): the Work.ua normalizer looks salary bounds up as string keys
in its bracket maps and omits a falsy (absent or zero) bound, but a present
bound with no matching bracket key yields the payload key set to Python `None`
rather than omitted; the Robota.ua normalizer performs no bracket lookup at all
and copies the raw numeric bounds (nullable) into its always-present salary
object. -/
theorem C4_salary_brackets (m : WorkUaMaps) (rm : RobotaUaMaps) (threshold : Int)
    (pnone p0 pmiss : SearchOptions) (nf nt : Int)
    (hfn : pnone.salary_from = none) (htn : pnone.salary_to = none)
    (hf0 : p0.salary_from = some 0) (ht0 : p0.salary_to = some 0)
    (hfm : pmiss.salary_from = some nf) (hfm0 : nf ≠ 0)
    (hfmiss : dictGet m.SALARY_FROM_OPTIONS (toString nf) = none)
    (htm : pmiss.salary_to = some nt) (htm0 : nt ≠ 0)
    (htmiss : dictGet m.SALARY_TO_OPTIONS (toString nt) = none) :
    (workua_unpack_search_options m threshold pnone).salaryfrom = none
    ∧ (workua_unpack_search_options m threshold pnone).salaryto = none
    ∧ (workua_unpack_search_options m threshold p0).salaryfrom = none
    ∧ (workua_unpack_search_options m threshold p0).salaryto = none
    ∧ (workua_unpack_search_options m threshold pmiss).salaryfrom = some none
    ∧ (workua_unpack_search_options m threshold pmiss).salaryto = some none
    ∧ (robotaua_base_payload rm threshold pmiss).salaryFrom = pmiss.salary_from
    ∧ (robotaua_base_payload rm threshold pmiss).salaryTo = pmiss.salary_to := by
  refine ⟨?_, ?_, ?_, ?_, ?_, ?_, rfl, rfl⟩
  · simp [workua_unpack_search_options, hfn]
  · simp [workua_unpack_search_options, htn]
  · simp [workua_unpack_search_options, hf0]
  · simp [workua_unpack_search_options, ht0]
  · simp [workua_unpack_search_options, hfm, hfm0, hfmiss]
  · simp [workua_unpack_search_options, htm, htm0, htmiss]

theorem C4_witness :
    (workua_unpack_search_options ⟨[], [], [], []⟩ 70
        ⟨"dev", none, none, none, none⟩).salaryfrom = none
    ∧ (workua_unpack_search_options ⟨[], [], [], []⟩ 70
        ⟨"dev", none, none, none, none⟩).salaryto = none
    ∧ (workua_unpack_search_options ⟨[], [], [], []⟩ 70
        ⟨"dev", none, some 0, some 0, none⟩).salaryfrom = none
    ∧ (workua_unpack_search_options ⟨[], [], [], []⟩ 70
        ⟨"dev", none, some 0, some 0, none⟩).salaryto = none
    ∧ (workua_unpack_search_options ⟨[], [], [], []⟩ 70
        ⟨"dev", none, some 5000, some 7000, none⟩).salaryfrom = some none
    ∧ (workua_unpack_search_options ⟨[], [], [], []⟩ 70
        ⟨"dev", none, some 5000, some 7000, none⟩).salaryto = some none
    ∧ (robotaua_base_payload ⟨[], []⟩ 70
        ⟨"dev", none, some 5000, some 7000, none⟩).salaryFrom
      = (⟨"dev", none, some 5000, some 7000, none⟩ : SearchOptions).salary_from
    ∧ (robotaua_base_payload ⟨[], []⟩ 70
        ⟨"dev", none, some 5000, some 7000, none⟩).salaryTo
      = (⟨"dev", none, some 5000, some 7000, none⟩ : SearchOptions).salary_to :=
  C4_salary_brackets ⟨[], [], [], []⟩ ⟨[], []⟩ 70
    ⟨"dev", none, none, none, none⟩ ⟨"dev", none, some 0, some 0, none⟩
    ⟨"dev", none, some 5000, some 7000, none⟩ 5000 7000
    rfl rfl rfl rfl rfl (by decide) rfl rfl (by decide) rfl

/-- C4 counterexample: a present salary bound (5000) with no matching bracket
key is not omitted from the Work.ua payload — the `salaryfrom` key is present
with value `None`. -/
theorem C4_counterexample :
    (workua_unpack_search_options ⟨[], [], [], []⟩ 70
        ⟨"dev", none, some 5000, none, none⟩).salaryfrom = some none
    ∧ (workua_unpack_search_options ⟨[], [], [], []⟩ 70
        ⟨"dev", none, some 5000, none, none⟩).salaryfrom ≠ none :=
  ⟨rfl, by decide⟩

/-- C5 (amended): the Robota.ua normalizer drops unmapped experience labels
silently (filtering an unmapped label out of the selection leaves
`experienceIds` unchanged), but the Work.ua normalizer maps an unmapped label
to the empty string inside the `"+".join`, so the label still contributes a
separator: prepending an unmapped label prepends a bare `"+"`. -/
theorem C5_unmapped_labels (rm : RobotaUaMaps) (m : WorkUaMaps)
    (exps exps2 : List String) (l : String)
    (hrob : dictGet rm.EXPERIENCE_OPTIONS l = none)
    (hwork : dictGet m.EXPERIENCE_OPTIONS l = none)
    (hne : exps2 ≠ []) :
    robotaua_experience_ids rm (exps.filter (fun e => decide (e ≠ l)))
        = robotaua_experience_ids rm exps
    ∧ workua_experience_value m (l :: exps2)
        = "+" ++ workua_experience_value m exps2 := by
  constructor
  · unfold robotaua_experience_ids
    exact filterMap_filter_ne _ l (by simp [hrob]) exps
  · cases exps2 with
    | nil => exact absurd rfl hne
    | cons b t =>
      unfold workua_experience_value
      simp only [List.map_cons]
      rw [hwork, Option.getD_none, intercalate_cons_cons]
      rfl

theorem C5_witness :
    robotaua_experience_ids ⟨[], [("A", 1)]⟩
        ((["A", "B"]).filter (fun e => decide (e ≠ "B")))
      = robotaua_experience_ids ⟨[], [("A", 1)]⟩ ["A", "B"]
    ∧ workua_experience_value ⟨[], [], [], [("A", "1")]⟩ ("B" :: ["A"])
      = "+" ++ workua_experience_value ⟨[], [], [], [("A", "1")]⟩ ["A"] :=
  C5_unmapped_labels ⟨[], [("A", 1)]⟩ ⟨[], [], [], [("A", "1")]⟩
    ["A", "B"] ["A"] "B" rfl rfl (by decide)

/-- C5 counterexample: with experience map {"A": "1"}, the unmapped label "B"
changes the Work.ua payload — ["A", "B"] joins to "1+" while ["A"] joins to
"1" — so an unmapped label does contribute to the payload. -/
theorem C5_counterexample :
    (workua_unpack_search_options ⟨[], [], [], [("A", "1")]⟩ 70
        ⟨"dev", none, none, none, some ["A", "B"]⟩).experience = some "1+"
    ∧ (workua_unpack_search_options ⟨[], [], [], [("A", "1")]⟩ 70
        ⟨"dev", none, none, none, some ["A"]⟩).experience = some "1"
    ∧ (some "1+" : Option String) ≠ some "1" :=
  ⟨rfl, rfl, by decide⟩

/-- C6: when the experience map contains ids for "5 to 10 years" and
"More than 10 years" and the selected labels contain "More than 5 years", the
Robota.ua payload's `experienceIds` contains the ids of both finer brackets —
whether or not "More than 5 years" is itself mapped — and additionally the id
mapped for "More than 5 years" whenever that label is mapped to a truthy id. -/
theorem C6_experience_expansion (m : RobotaUaMaps) (threshold : Int)
    (params : SearchOptions) (v1 v2 v3 : Int)
    (h1 : dictGet m.EXPERIENCE_OPTIONS "5 to 10 years" = some v1)
    (h2 : dictGet m.EXPERIENCE_OPTIONS "More than 10 years" = some v2)
    (hmem : "More than 5 years" ∈ params.experience.getD []) :
    robotaua_unpack_search_options m threshold params
      = .ok { robotaua_base_payload m threshold params with
              experienceIds :=
                robotaua_experience_ids m (params.experience.getD [])
                  ++ [v1, v2] }
    ∧ v1 ∈ robotaua_experience_ids m (params.experience.getD []) ++ [v1, v2]
    ∧ v2 ∈ robotaua_experience_ids m (params.experience.getD []) ++ [v1, v2]
    ∧ (dictGet m.EXPERIENCE_OPTIONS "More than 5 years" = some v3 → v3 ≠ 0 →
        v3 ∈ robotaua_experience_ids m (params.experience.getD []) ++ [v1, v2]) := by
  refine ⟨?_, by simp, by simp, ?_⟩
  · simp [robotaua_unpack_search_options, hmem, h1, h2, robotaua_base_payload]
  · intro h3 h30
    apply List.mem_append_left
    unfold robotaua_experience_ids
    apply List.mem_filterMap.mpr
    exact ⟨"More than 5 years", hmem, by simp [h3, h30]⟩

theorem C6_witness :
    (robotaua_unpack_search_options sampleExpMap 70 sampleExpOptions
      = .ok { robotaua_base_payload sampleExpMap 70 sampleExpOptions with
              experienceIds :=
                robotaua_experience_ids sampleExpMap
                  (sampleExpOptions.experience.getD []) ++ [4, 5] })
    ∧ 4 ∈ robotaua_experience_ids sampleExpMap
          (sampleExpOptions.experience.getD []) ++ [4, 5]
    ∧ 5 ∈ robotaua_experience_ids sampleExpMap
          (sampleExpOptions.experience.getD []) ++ [4, 5]
    ∧ 3 ∈ robotaua_experience_ids sampleExpMap
          (sampleExpOptions.experience.getD []) ++ [4, 5]
    ∧ (robotaua_unpack_search_options sampleExpMapUnmapped 70 sampleExpOptions
      = .ok { robotaua_base_payload sampleExpMapUnmapped 70 sampleExpOptions with
              experienceIds :=
                robotaua_experience_ids sampleExpMapUnmapped
                  (sampleExpOptions.experience.getD []) ++ [4, 5] })
    ∧ 4 ∈ robotaua_experience_ids sampleExpMapUnmapped
          (sampleExpOptions.experience.getD []) ++ [4, 5]
    ∧ 5 ∈ robotaua_experience_ids sampleExpMapUnmapped
          (sampleExpOptions.experience.getD []) ++ [4, 5] :=
  ⟨(C6_experience_expansion sampleExpMap 70 sampleExpOptions 4 5 3
      rfl rfl (by decide)).1,
    (C6_experience_expansion sampleExpMap 70 sampleExpOptions 4 5 3
      rfl rfl (by decide)).2.1,
    (C6_experience_expansion sampleExpMap 70 sampleExpOptions 4 5 3
      rfl rfl (by decide)).2.2.1,
    (C6_experience_expansion sampleExpMap 70 sampleExpOptions 4 5 3
      rfl rfl (by decide)).2.2.2 rfl (by decide),
    (C6_experience_expansion sampleExpMapUnmapped 70 sampleExpOptions 4 5 0
      rfl rfl (by decide)).1,
    (C6_experience_expansion sampleExpMapUnmapped 70 sampleExpOptions 4 5 0
      rfl rfl (by decide)).2.1,
    (C6_experience_expansion sampleExpMapUnmapped 70 sampleExpOptions 4 5 0
      rfl rfl (by decide)).2.2.1⟩

end ResumeParser
